import Mathlib

/-!
Verification of the `holders` library (hold.ts and basic-forms.tsx) against its
specification.

Part 1 models the three holder flavors of hold.ts (ValueHolder, PropHolder,
StateHolder).  Each `set` method is embedded as a pure function from the value
currently stored in the backing store and the proposed new value to a
`SetResult` recording
  - the value left in the backing store after `set` returns,
  - how many assignments to the backing store `set` performed
    (for StateHolder, how many `setState` calls it issued),
  - how many times the user interceptor (`onChanging`/`onChange`) was invoked,
  - the content of the backing store at the moment the interceptor was invoked
    (`none` when no interceptor was invoked).

The user interceptor `OnChanging<T>` is modeled as a pure function from
(newValue, oldValue) to `Option T`, where `none` stands for JavaScript
`undefined` (accept the default behavior) and `some r` stands for a returned
replacement value.  The `attr` and `holder` arguments of the TypeScript
callback are constants of the holder instance and are not modeled.  JavaScript
`!==` on the stored values is modeled as decidable equality on `T`.

StateHolder's backing store is React component state; its `setState` call is
modeled as synchronously applying the single-key update (the framework's
batching of state updates is out of scope, as the spec's concurrency section
states).
-/

universe u

/-- Result of running a holder's `set` method, together with the observations
an instrumented backing store / interceptor would record. -/
structure SetResult (T : Type u) where
  value : T
  writes : Nat
  interceptorCalls : Nat
  storeAtCall : Option T
deriving DecidableEq

/-- `ValueHolder.set` from hold.ts (the class returned by `NewValueHolderClass`):

    set(newValue) {
      let oldValue = this.value, delayedWrite = this.delayedWrite();
      if (this.onChanging) {
        if (!delayedWrite)
          this.value = newValue;
        let result = this.onChanging(newValue, oldValue, "value", this);
        if (result !== undefined)
          newValue = result;
      }
      if (this.value !== newValue)
        this.value = newValue;
    }

`value` is the content of the backing cell `this.value` on entry. -/
def ValueHolder.set {T : Type u} [DecidableEq T] (delayedWrite : Bool)
    (onChanging : Option (T → T → Option T)) (value : T) (newValue : T) : SetResult T :=
  let oldValue := value
  match onChanging with
  | none =>
    if value ≠ newValue then ⟨newValue, 1, 0, none⟩ else ⟨value, 0, 0, none⟩
  | some f =>
    let store1 := if delayedWrite then value else newValue
    let w1 : Nat := if delayedWrite then 0 else 1
    let newValue1 := match f newValue oldValue with
      | some r => r
      | none => newValue
    if store1 ≠ newValue1 then ⟨newValue1, w1 + 1, 1, some store1⟩
    else ⟨store1, w1, 1, some store1⟩

/-- `PropHolder.set` from hold.ts (the class returned by `NewPropHolderClass`):

    set(newValue) {
      let oldValue = this.get, delayedWrite = this.delayedWrite(), onChange = this.onChange();
      if (onChange) {
        if (!delayedWrite)
          this.model()[this.attr] = newValue;
        let result = onChange(newValue, oldValue, this.attr, this);
        if (result !== undefined)
          newValue = result;
        else if (!delayedWrite)
          return;
      }
      if (this.get !== newValue)
        this.model()[this.attr] = newValue;
    }

`stored` is the content of `model[attr]` on entry; `this.get` re-reads the
store, so after the eager pre-write it reads the pre-written value. -/
def PropHolder.set {T : Type u} [DecidableEq T] (delayedWrite : Bool)
    (onChange : Option (T → T → Option T)) (stored : T) (newValue : T) : SetResult T :=
  let oldValue := stored
  match onChange with
  | none =>
    if stored ≠ newValue then ⟨newValue, 1, 0, none⟩ else ⟨stored, 0, 0, none⟩
  | some f =>
    let store1 := if delayedWrite then stored else newValue
    let w1 : Nat := if delayedWrite then 0 else 1
    match f newValue oldValue with
    | some r =>
      if store1 ≠ r then ⟨r, w1 + 1, 1, some store1⟩ else ⟨store1, w1, 1, some store1⟩
    | none =>
      if delayedWrite then
        (if store1 ≠ newValue then ⟨newValue, w1 + 1, 1, some store1⟩
         else ⟨store1, w1, 1, some store1⟩)
      else ⟨store1, w1, 1, some store1⟩

/-- `StateHolder.set` from hold.ts (the class returned by `NewStateHolderClass`).
Identical control flow to `PropHolder.set`, with `this.setState(newValue)`
(modeled as a synchronous write of `component.state[attr]`) in place of the
model-property assignment. -/
def StateHolder.set {T : Type u} [DecidableEq T] (delayedWrite : Bool)
    (onChange : Option (T → T → Option T)) (stored : T) (newValue : T) : SetResult T :=
  let oldValue := stored
  match onChange with
  | none =>
    if stored ≠ newValue then ⟨newValue, 1, 0, none⟩ else ⟨stored, 0, 0, none⟩
  | some f =>
    let store1 := if delayedWrite then stored else newValue
    let w1 : Nat := if delayedWrite then 0 else 1
    match f newValue oldValue with
    | some r =>
      if store1 ≠ r then ⟨r, w1 + 1, 1, some store1⟩ else ⟨store1, w1, 1, some store1⟩
    | none =>
      if delayedWrite then
        (if store1 ≠ newValue then ⟨newValue, w1 + 1, 1, some store1⟩
         else ⟨store1, w1, 1, some store1⟩)
      else ⟨store1, w1, 1, some store1⟩

/-!
Part 2: JavaScript primitives used by basic-forms.tsx.

JavaScript strings are modeled as `List Char`; `s[i]` is `List.get?`,
`s.slice(a, b)` is `jsSlice`, and string concatenation is `List.append`.
JavaScript numbers appearing in this code are integer-valued or `NaN`; they
are modeled as `Option Int` with `none` for `NaN`.
-/

/-- The whitespace characters relevant to `parseInt`'s leading-whitespace
skipping. -/
def jsIsSpace (c : Char) : Bool :=
  c = ' ' ∨ c = '\t' ∨ c = '\n' ∨ c = '\r'

/-- Decimal digit test, as in the ECMA-262 StringToNumber grammar. -/
def isDigitCh (c : Char) : Bool := 48 ≤ c.toNat ∧ c.toNat ≤ 57

/-- Numeric value of a decimal digit character. -/
def digitVal (c : Char) : Nat := c.toNat - 48

/-- Value of a big-endian list of decimal digit characters. -/
def decToNat (cs : List Char) : Nat := cs.foldl (fun a c => 10 * a + digitVal c) 0

/-- Helper for `jsParseInt`: parse the maximal leading run of decimal digits,
returning `NaN` (`none`) if there is none. -/
def jsParseIntFrom (cs : List Char) (sign : Int) : Option Int :=
  let ds := cs.takeWhile isDigitCh
  if ds = [] then none else some (sign * (decToNat ds : Int))

/-- ECMA-262 `parseInt(string)` as used in this code base (no radix argument,
inputs without a `0x` prefix): skip leading whitespace, read an optional sign,
then interpret the maximal leading run of decimal digits, ignoring any
trailing characters; `NaN` when no digits are found. -/
def jsParseInt (cs0 : List Char) : Option Int :=
  let cs := cs0.dropWhile jsIsSpace
  if cs.headD ' ' = '-' then jsParseIntFrom (cs.drop 1) (-1)
  else if cs.headD ' ' = '+' then jsParseIntFrom (cs.drop 1) 1
  else jsParseIntFrom cs 1

/-- JavaScript `s.slice(a, b)` for `0 ≤ a ≤ b`. -/
def jsSlice (cs : List Char) (a b : Nat) : List Char := (cs.take b).drop a

/-- The glyph of a decimal digit. -/
def digitChar : Nat → Char
  | 0 => '0' | 1 => '1' | 2 => '2' | 3 => '3' | 4 => '4'
  | 5 => '5' | 6 => '6' | 7 => '7' | 8 => '8' | _ => '9'

/-- Big-endian decimal digits of a natural number, with enough recursion fuel
for every value in scope (8 digits covers the year range TimeClip admits). -/
def natToDecAux : Nat → Nat → List Char
  | 0, _ => []
  | fuel + 1, n => if n = 0 then [] else natToDecAux fuel (n / 10) ++ [digitChar (n % 10)]

/-- Decimal representation of a natural number (JavaScript
`Number.prototype.toString` restricted to nonnegative integers). -/
def natToDec (n : Nat) : List Char :=
  if n = 0 then ['0'] else natToDecAux 8 n

/-- Decimal representation of an integer (JavaScript
`Number.prototype.toString` restricted to integers). -/
def intToDec (i : Int) : List Char :=
  if i < 0 then '-' :: natToDec (-i).toNat else natToDec i.toNat

/-- JavaScript truthiness of a `string` value. -/
def truthyS (s : String) : Bool := s ≠ ""

/-- JavaScript truthiness of a `string | undefined` value. -/
def truthyO : Option String → Bool
  | none => false
  | some s => s ≠ ""

/-!
Part 3: the TextBase component of basic-forms.tsx (base class of TextBox,
TextArea, DateBox and TimeBox) and the prop helper functions.

The holder passed in the `value` prop is modeled by `HolderRep`: an optional
setter (absent for read-only holders).  The live content of the holder's
backing store is threaded through `TBState.held`; the setter is a function
from the current store and proposed value to either the new store content or
a thrown error message (`Except.error`).  The component state fields mirror
`TextBaseState` in the source (`tempText`, `hasFocus`, `hadError`,
`parseError`); `props.error` is modeled by its resolved string value and the
browser's `validationMessage` by a fixed string `vmsg`.
-/

/-- The `value` prop of an input component: a holder with an optional `set`
function.  (`get` is the live store content, threaded separately.) -/
structure HolderRep (T : Type u) where
  set : Option (T → T → Except String T)

/-- `isDisabled` from basic-forms.tsx:
`props.disabled || !(props.value && props.value.set)`. -/
def isDisabled {T : Type u} (disabled : Bool) (value : Option (HolderRep T)) : Bool :=
  disabled || !(match value with
    | some h => h.set.isSome
    | none => false)

/-- `trySet` from basic-forms.tsx:

    if (props.value && props.value.set)
      try { props.value.set(newValue); } catch(e) { return e; }

Returns the store content afterwards and the caught error, if any. -/
def trySet {T : Type u} (value : Option (HolderRep T)) (store : T) (newValue : T) :
    T × Option String :=
  match value with
  | some h =>
    match h.set with
    | some f =>
      match f store newValue with
      | Except.ok s2 => (s2, none)
      | Except.error e => (store, some e)
    | none => (store, none)
  | none => (store, none)

/-- The props of a TextBase instance that its handlers consult. -/
structure TBConfig (T : Type u) where
  parse : List Char → T → Except String T
  value : Option (HolderRep T)
  keepBadText : Bool
  showErrorEarly : Bool
  propsError : Option String
  vmsg : String

/-- `TextBaseState` from basic-forms.tsx plus the holder's live store content. -/
structure TBState (T : Type u) where
  tempText : Option (List Char)
  hasFocus : Bool
  hadError : Bool
  parseError : Option String
  held : T
deriving DecidableEq

/-- The initial state: `state: TextBaseState = {}` (all fields undefined,
hence falsy) with the holder storing `v0`. -/
def tbInit {T : Type u} (v0 : T) : TBState T := ⟨none, false, false, none, v0⟩

/-- `TextBase.getError`:
`return getError(this.props) || this.state.parseError || el && el.validationMessage`
with the `getError(props)` helper resolved to the props' error string.  The
result is the first truthy of the three sources (`""` when all are falsy). -/
def TextBase.getError {T : Type u} (cfg : TBConfig T) (st : TBState T) : String :=
  if truthyO cfg.propsError then cfg.propsError.getD ""
  else if truthyO st.parseError then st.parseError.getD ""
  else cfg.vmsg

/-- `TextBase.getVisibleError`:

    if (this.showErrorEarly() || state.hadError || (state.parseError && !this.keepBadText()))
      return this.getError();
    else return "";
-/
def TextBase.getVisibleError {T : Type u} (cfg : TBConfig T) (st : TBState T) : String :=
  if cfg.showErrorEarly || st.hadError || (truthyO st.parseError && !cfg.keepBadText) then
    TextBase.getError cfg st
  else ""

/-- `onFocus` handler: `this.setState({ hasFocus: true })`. -/
def TextBase.onFocus {T : Type u} (st : TBState T) : TBState T :=
  { st with hasFocus := true }

/-- `onBlur` handler:

    let change = { hasFocus: false, hadError: !!this.getError() };
    if (!this.keepBadText())
      change.tempText = undefined, change.parseError = "";
    this.setState(change);

`getError` is evaluated against the state before the update. -/
def TextBase.onBlur {T : Type u} (cfg : TBConfig T) (st : TBState T) : TBState T :=
  let st1 := { st with hasFocus := false, hadError := truthyS (TextBase.getError cfg st) }
  if cfg.keepBadText then st1
  else { st1 with tempText := none, parseError := some "" }

/-- `onChange` handler (the branch where a `parse` prop is present, as in all
fields this development reasons about):

    var result = props.parse.call(this, e.target.value, getValue(props));
    if (!(result instanceof Error)) result = trySet(props, result) || result;
    (exceptions from parse are caught into result)
    if (this.state.hasFocus || result instanceof Error) this.setState({ tempText: value });
    this.setState({ parseError: result instanceof Error ? result.message : undefined });
-/
def TextBase.onChange {T : Type u} (cfg : TBConfig T) (st : TBState T)
    (text : List Char) : TBState T :=
  match cfg.parse text st.held with
  | Except.error msg =>
    { st with tempText := some text, parseError := some msg }
  | Except.ok r =>
    match trySet cfg.value st.held r with
    | (store2, some msg) =>
      { st with held := store2, tempText := some text, parseError := some msg }
    | (store2, none) =>
      { st with held := store2,
                tempText := if st.hasFocus then some text else st.tempText,
                parseError := none }

/-- The events a TextBase instance reacts to. -/
inductive TBEvent where
  | focusEv : TBEvent
  | blurEv : TBEvent
  | changeEv : List Char → TBEvent
deriving DecidableEq

/-- One step of the TextBase event loop. -/
def tbStep {T : Type u} (cfg : TBConfig T) (st : TBState T) : TBEvent → TBState T
  | TBEvent.focusEv => TextBase.onFocus st
  | TBEvent.blurEv => TextBase.onBlur cfg st
  | TBEvent.changeEv text => TextBase.onChange cfg st text

/-- Run a sequence of events from a state. -/
def tbRun {T : Type u} (cfg : TBConfig T) (st : TBState T) (evts : List TBEvent) : TBState T :=
  evts.foldl (tbStep cfg) st

/-- The parse function of the spec's scenario for C5:
`parse = s => parseInt(s) || Error("bad")` — the `||` falls through to the
error when `parseInt` returns `0` or `NaN`. -/
def scenarioParse (s : List Char) (_old : Int) : Except String Int :=
  match jsParseInt s with
  | some n => if n = 0 then Except.error "bad" else Except.ok n
  | none => Except.error "bad"

/-- The scenario configuration for C5: a numeric holder with a plain setter,
default validation flags, no `error` prop, no native validation message. -/
def scenarioCfg : TBConfig Int :=
  ⟨scenarioParse, some ⟨some fun _ n => Except.ok n⟩, false, false, none, ""⟩

/-!
Part 4: the date/time fields (DateBox, TimeBox) of basic-forms.tsx.

The JavaScript `Date` built-ins the source calls (`setFullYear`, `setHours`,
`setUTCHours`, `getFullYear`/`getMonth`/`getDate`, `getHours`/...,
`toISOString`, `valueOf`) are modeled from ECMA-262: a Date object carries a
time value — an integer count of milliseconds since the epoch, or `NaN` for
an Invalid Date — modeled as `JSDateObj := Option Int` with `none` for
`NaN`.  A JavaScript `Date | undefined` value is `Option JSDateObj`.
Local time is UTC plus a fixed offset `off` in milliseconds (`LocalTime(t) =
t + off`; daylight-saving transitions are out of scope), threaded as an
explicit model parameter, as is `now` (the instant `new Date()` denotes).
The civil-calendar conversions (ECMA MakeDay / YearFromTime / MonthFromTime /
DateFromTime over the proleptic Gregorian calendar) are implemented with the
standard era-based algorithm; `daysFromCivil`/`civilFromDays` translate
between a day number (days since 1970-01-01) and a calendar triple
(year, month 1..12, day 1..31).
-/

def msPerDay : Int := 86400000

def msPerHour : Int := 3600000

def msPerMinute : Int := 60000

/-- Era index (400-year cycle) of a day number shifted to the era origin. -/
def cvEra (z : Int) : Int := (z + 719468) / 146097

/-- Day-of-era, in `[0, 146096]`. -/
def cvDoe (z : Int) : Int := (z + 719468) - cvEra z * 146097

/-- Year-of-era, in `[0, 399]`. -/
def cvYoe (z : Int) : Int :=
  (cvDoe z - cvDoe z / 1460 + cvDoe z / 36524 - cvDoe z / 146096) / 365

/-- Day-of-year relative to March 1, in `[0, 365]`. -/
def cvDoy (z : Int) : Int :=
  cvDoe z - (365 * cvYoe z + cvYoe z / 4 - cvYoe z / 100)

/-- March-based month index, in `[0, 11]`. -/
def cvMp (z : Int) : Int := (5 * cvDoy z + 2) / 153

/-- Day of month, in `[1, 31]`. -/
def cvD (z : Int) : Int := cvDoy z - (153 * cvMp z + 2) / 5 + 1

/-- Calendar month, in `[1, 12]`. -/
def cvM (z : Int) : Int := if cvMp z < 10 then cvMp z + 3 else cvMp z - 9

/-- Calendar year. -/
def cvY (z : Int) : Int := cvYoe z + cvEra z * 400 + (if cvM z ≤ 2 then 1 else 0)

/-- Day number → calendar triple (year, month 1..12, day 1..31). -/
def civilFromDays (z : Int) : Int × Int × Int := (cvY z, cvM z, cvD z)

/-- The year shifted so the year starts in March. -/
def dcY2 (y m : Int) : Int := y - (if m ≤ 2 then 1 else 0)

/-- Era index of a calendar year. -/
def dcEra (y m : Int) : Int := dcY2 y m / 400

/-- Year-of-era of a calendar year, in `[0, 399]`. -/
def dcYoe (y m : Int) : Int := dcY2 y m - dcEra y m * 400

/-- Day-of-year (March-based) of a month/day pair; linear in `d`, so an
out-of-range `d` rolls over exactly as ECMA MakeDay does. -/
def dcDoy (m d : Int) : Int :=
  (153 * (if 2 < m then m - 3 else m + 9) + 2) / 5 + d - 1

/-- Day-of-era of a calendar date. -/
def dcDoe (y m d : Int) : Int :=
  dcYoe y m * 365 + dcYoe y m / 4 - dcYoe y m / 100 + dcDoy m d

/-- Calendar triple (year, month 1..12, day) → day number. -/
def daysFromCivil (y m d : Int) : Int := dcEra y m * 146097 + dcDoe y m d - 719468

/-- ECMA MakeDay: the month index (0-based) may be out of `[0, 11]` and is
normalized into the year; the day may be out of range and rolls over. -/
def makeDay (y mIdx d : Int) : Int :=
  daysFromCivil (y + mIdx / 12) (mIdx % 12 + 1) d

/-- Days before March 1 of year-of-era `y` (0-based), within a 400-year era:
the quantity `365 * yoe + yoe / 4 - yoe / 100` appearing in both calendar
conversions. -/
def eraF (y : Int) : Int := 365 * y + y / 4 - y / 100

/-- ECMA TimeClip: time values beyond ±8.64e15 ms denote an Invalid Date. -/
def timeClip (t : Int) : Option Int :=
  if t.natAbs ≤ 8640000000000000 then some t else none

/-- ECMA Day(t). -/
def jsDay (t : Int) : Int := t / msPerDay

/-- ECMA TimeWithinDay(t). -/
def timeWithinDay (t : Int) : Int := t % msPerDay

/-- ECMA HourFromTime(t). -/
def hourFromTime (t : Int) : Int := t / msPerHour % 24

/-- ECMA MinFromTime(t). -/
def minFromTime (t : Int) : Int := t / msPerMinute % 60

/-- ECMA SecFromTime(t). -/
def secFromTime (t : Int) : Int := t / 1000 % 60

/-- ECMA msFromTime(t). -/
def msFromTime (t : Int) : Int := t % 1000

/-- ECMA MakeTime restricted to integral arguments. -/
def makeTime (h m s ms : Int) : Int := h * msPerHour + m * msPerMinute + s * 1000 + ms

/-- ECMA MakeDate. -/
def makeDate (day time : Int) : Int := day * msPerDay + time

/-- A JavaScript Date object's time value: `none` is an Invalid Date. -/
abbrev JSDateObj := Option Int

/-- `d.setUTCHours(h, m, 0, 0)` on a valid date with time value `t`. -/
def setUTCHoursHM (t h m : Int) : Option Int :=
  timeClip (makeDate (jsDay t) (makeTime h m 0 0))

/-- `d.setHours(h, m, 0, 0)` (local time) on a valid date with time value `t`. -/
def setHoursHM (t off h m : Int) : Option Int :=
  timeClip (makeDate (jsDay (t + off)) (makeTime h m 0 0) - off)

/-- `d.setFullYear(y, mIdx, d)` (always local time) on a date with time value
`t`; per ECMA-262, `setFullYear` treats a `NaN` time value as `+0`, which the
caller models by passing `t = 0`. -/
def setFullYearYMD (t off y mIdx d : Int) : Option Int :=
  timeClip (makeDate (makeDay y mIdx d) (timeWithinDay (t + off)) - off)

/-- `(d.getUTCFullYear(), d.getUTCMonth() + 1, d.getUTCDate())` of a valid date. -/
def getUTCymd (t : Int) : Int × Int × Int := civilFromDays (jsDay t)

/-- `(d.getFullYear(), d.getMonth() + 1, d.getDate())` of a valid date. -/
def getLocalymd (t off : Int) : Int × Int × Int := civilFromDays (jsDay (t + off))

/-- `twoDigit` from basic-forms.tsx: `('0' + n).slice(-2)` for an integer `n`. -/
def twoDigit (n : Int) : List Char :=
  let s := '0' :: intToDec n
  s.drop (s.length - 2)

/-- Left-pad a digit string with zeros to a given width. -/
def padZeros (n : Nat) (cs : List Char) : List Char :=
  List.replicate (n - cs.length) '0' ++ cs

/-- The year field of `toISOString` (4 digits for years 0..9999, otherwise the
expanded ±6-digit form). -/
def isoYearChars (y : Int) : List Char :=
  if 0 ≤ y ∧ y ≤ 9999 then padZeros 4 (natToDec y.toNat)
  else if 9999 < y then '+' :: padZeros 6 (natToDec y.toNat)
  else '-' :: padZeros 6 (natToDec (-y).toNat)

/-- The leading characters of `toISOString` of a valid date; the time portion
is irrelevant to `substr(0, 10)` and is represented by its initial 'T'. -/
def isoChars (t : Int) : List Char :=
  isoYearChars (getUTCymd t).1 ++ '-' :: twoDigit (getUTCymd t).2.1
    ++ '-' :: twoDigit (getUTCymd t).2.2 ++ ['T']

/-- What the local branch of `dateToString` produces for an Invalid Date:
`getFullYear()` is `NaN`, so `NaN + '-' + twoDigit(NaN + 1) + ...` is
"NaN-aN-aN" (`('0' + NaN).slice(-2)` is "aN"). -/
def nanDateChars : List Char := ['N', 'a', 'N', '-', 'a', 'N', '-', 'a', 'N']

/-- `dateToString` from basic-forms.tsx:

    if (!d) return undefined;
    if (utc) return d.toISOString().substr(0,10);
    return d.getFullYear() + '-' + twoDigit(d.getMonth()+1) + '-' + twoDigit(d.getDate());

(`toISOString` on an Invalid Date throws a RangeError; that branch is modeled
as producing no string.) -/
def dateToString (d : Option JSDateObj) (utc : Bool) (off : Int) : Option (List Char) :=
  match d with
  | none => none
  | some dobj =>
    match dobj with
    | none => if utc then none else some nanDateChars
    | some t =>
      if utc then some (jsSlice (isoChars t) 0 10)
      else
        some (intToDec (getLocalymd t off).1 ++ '-' :: twoDigit (getLocalymd t off).2.1
          ++ '-' :: twoDigit (getLocalymd t off).2.2)

/-- `timeTo24hString` from basic-forms.tsx:

    if (!time) return "";
    var [h,m] = utc ? [time.getUTCHours(), time.getUTCMinutes()]
                    : [time.getHours(), time.getMinutes()];
    return time ? twoDigit(h) + ":" + twoDigit(m) : "";

On an Invalid Date the getters return `NaN` and `twoDigit(NaN)` is "aN". -/
def timeTo24hString (time : Option JSDateObj) (utc : Bool) (off : Int) : List Char :=
  match time with
  | none => []
  | some dobj =>
    match dobj with
    | none => ['a', 'N', ':', 'a', 'N']
    | some t =>
      let h := if utc then hourFromTime t else hourFromTime (t + off)
      let m := if utc then minFromTime t else minFromTime (t + off)
      twoDigit h ++ ':' :: twoDigit m

/-- `parseDate` from basic-forms.tsx:

    if (s && s[4] == '-' && s[7] == '-') {
      var y = parseInt(s.slice(0,4)), m = parseInt(s.slice(5,7)), d = parseInt(s.slice(8,10));
      if (y == y || m == m || d == d) {
        var r = time ? new Date(time.valueOf()) : new Date();
        if (!time) r.setUTCHours(12,0,0,0);
        r.setFullYear(y, m-1, d);
        return r;
      }
    }
    return undefined;

Note that the declared `utc` parameter is never read: `setFullYear` always
interprets the fields in local time.  `y == y` is the `NaN` test
(`Option.isSome` here); when some field is `NaN`, `setFullYear` yields an
Invalid Date (`some none`), not `undefined`. -/
def parseDate (s : List Char) (utc : Bool) (time : Option JSDateObj) (off now : Int) :
    Option JSDateObj :=
  if s ≠ [] ∧ s.get? 4 = some '-' ∧ s.get? 7 = some '-' then
    let y := jsParseInt (jsSlice s 0 4)
    let m := jsParseInt (jsSlice s 5 7)
    let d := jsParseInt (jsSlice s 8 10)
    if y.isSome || m.isSome || d.isSome then
      let r : JSDateObj :=
        match time with
        | some t => t
        | none => setUTCHoursHM now 12 0
      match y, m, d with
      | some yv, some mv, some dv =>
        some (setFullYearYMD (r.getD 0) off yv (mv - 1) dv)
      | _, _, _ => some none
    else none
  else none

/-- `parse24hTime` from basic-forms.tsx:

    if (value && value[2] === ':') {
      var h = parseInt(value.slice(0,2));
      var m = parseInt(value.slice(3));
      if (h >= 0 && h < 24 && m >= 0 && m < 60) {
        var clone = day ? new Date(day.valueOf()) : new Date();
        if (utc) clone.setUTCHours(h, m, 0, 0); else clone.setHours(h, m, 0, 0);
        return clone;
      }
    }
    return day;

The `NaN` comparisons `h >= 0` etc are false, falling through to `return day`. -/
def parse24hTime (value : Option (List Char)) (day : Option JSDateObj) (utc : Bool)
    (off now : Int) : Option JSDateObj :=
  match value with
  | none => day
  | some v =>
    if v ≠ [] ∧ v.get? 2 = some ':' then
      match jsParseInt (jsSlice v 0 2), jsParseInt (v.drop 3) with
      | some h, some m =>
        if 0 ≤ h ∧ h < 24 ∧ 0 ≤ m ∧ m < 60 then
          let base : JSDateObj :=
            match day with
            | some dobj => dobj
            | none => some now
          some (match base with
            | some t => if utc then setUTCHoursHM t h m else setHoursHM t off h m
            | none => none)
        else day
      | _, _ => day
    else day

/-- JavaScript `a || b` on `Date | undefined` values: every Date object
(Invalid included) is truthy. -/
def jsOrDate (a b : Option JSDateObj) : Option JSDateObj :=
  match a with
  | some x => some x
  | none => b

/-- The parse function DateBox installs:
`p2.parse = (s, oldVal) => parseDate(s, props.utc, oldVal)`. -/
def DateBox.parse (utc : Bool) (off now : Int) (s : List Char)
    (oldVal : Option JSDateObj) : Except String (Option JSDateObj) :=
  Except.ok (parseDate s utc oldVal off now)

/-- The stringify function DateBox installs:
`p2.stringify = d => dateToString(d, props.utc) || ""`. -/
def DateBox.stringify (utc : Bool) (off : Int) (d : Option JSDateObj) : List Char :=
  (dateToString d utc off).getD []

/-- The parse function TimeBox installs:
`p2.parse = (input, oldValue) => parse24hTime(input, oldValue || props.day, props.utc)`. -/
def TimeBox.parse (utc : Bool) (day : Option JSDateObj) (off now : Int) (s : List Char)
    (oldVal : Option JSDateObj) : Except String (Option JSDateObj) :=
  Except.ok (parse24hTime (some s) (jsOrDate oldVal day) utc off now)

/-- The stringify function TimeBox installs:
`p2.stringify = d => timeTo24hString(d, props.utc)`. -/
def TimeBox.stringify (utc : Bool) (off : Int) (d : Option JSDateObj) : List Char :=
  timeTo24hString d utc off

/-- Gregorian leap year. -/
def isLeapYear (y : Int) : Prop :=
  y % 4 = 0 ∧ (y % 100 ≠ 0 ∨ y % 400 = 0)

instance (y : Int) : Decidable (isLeapYear y) := by
  unfold isLeapYear
  infer_instance

/-- Number of days in a month of the Gregorian calendar. -/
def daysInMonth (y m : Int) : Int :=
  if m = 2 then
    (if y % 4 = 0 ∧ (y % 100 ≠ 0 ∨ y % 400 = 0) then 29 else 28)
  else if m = 4 ∨ m = 6 ∨ m = 9 ∨ m = 11 then 30 else 31

/-- A well-formed calendar date. -/
def validYMD (y m d : Int) : Prop :=
  1 ≤ m ∧ m ≤ 12 ∧ 1 ≤ d ∧ d ≤ daysInMonth y m

instance (y m d : Int) : Decidable (validYMD y m d) := by
  unfold validYMD
  infer_instance

/-- The canonical YYYY-MM-DD text of a calendar date (what
`<input type="date">` supplies, with the year zero-padded to 4 digits). -/
def dateStrChars (y m d : Int) : List Char :=
  padZeros 4 (natToDec y.toNat) ++ '-' :: twoDigit m ++ '-' :: twoDigit d

/-!
Calendar lemmas: the two civil-calendar conversions are mutually inverse.
-/

set_option maxHeartbeats 1000000 in
/-- Decoding the year-of-era from a day-of-era written as `eraF yoe + doy`
recovers `yoe`, provided `doy` is a legal day-of-(March-based)-year: at most
364, or 365 exactly when the February that ends the year (of civil year-of-era
`yoe + 1`) is in a leap year. -/
theorem yoe_decode (yoe doy : Int) (h1 : 0 ≤ yoe) (h2 : yoe ≤ 399) (h3 : 0 ≤ doy)
    (h4 : doy ≤ 364 ∨
      (doy = 365 ∧ (yoe + 1) % 4 = 0 ∧ ((yoe + 1) % 100 ≠ 0 ∨ yoe = 399))) :
    ((eraF yoe + doy) - (eraF yoe + doy) / 1460 + (eraF yoe + doy) / 36524
      - (eraF yoe + doy) / 146096) / 365 = yoe := by
  unfold eraF
  interval_cases yoe <;> omega

/-- Every day-of-era in `[0, 146096]` is `eraF yoe + doy` for a unique legal
pair; this provides the existence half. -/
theorem era_coverage (doe : Int) (h0 : 0 ≤ doe) (h1 : doe ≤ 146096) :
    ∃ yoe doy : Int, 0 ≤ yoe ∧ yoe ≤ 399 ∧ 0 ≤ doy ∧
      (doy ≤ 364 ∨
        (doy = 365 ∧ (yoe + 1) % 4 = 0 ∧ ((yoe + 1) % 100 ≠ 0 ∨ yoe = 399))) ∧
      doe = eraF yoe + doy := by
  have main : ∀ k : Nat, (k : Int) ≤ 400 → ∀ e : Int, 0 ≤ e → e < eraF k →
      ∃ yoe doy : Int, 0 ≤ yoe ∧ yoe ≤ (k : Int) - 1 ∧ 0 ≤ doy ∧
        (doy ≤ 364 ∨
          (doy = 365 ∧ (yoe + 1) % 4 = 0 ∧ ((yoe + 1) % 100 ≠ 0 ∨ yoe = 399))) ∧
        e = eraF yoe + doy := by
    intro k
    induction k with
    | zero =>
      intro _ e he0 helt
      exfalso
      unfold eraF at helt
      push_cast at helt
      omega
    | succ n ih =>
      intro hk e he0 helt
      by_cases hc : e < eraF n
      · obtain ⟨yoe, doy, a1, a2, a3, a4, a5⟩ :=
          ih (by push_cast at hk ⊢; omega) e he0 hc
        exact ⟨yoe, doy, a1, by push_cast at a2 ⊢; omega, a3, a4, a5⟩
      · push_neg at hc
        have hn1 : ((n : Int) + 1) ≤ 400 := by push_cast at hk; omega
        have helt2 : e < eraF ((n : Int) + 1) := by
          push_cast at helt
          exact helt
        refine ⟨(n : Int), e - eraF (n : Int), Int.natCast_nonneg n,
          by push_cast; omega, by omega, ?_, by ring⟩
        unfold eraF at hc helt2 ⊢
        omega
  rcases lt_or_eq_of_le h1 with h1 | h1
  · obtain ⟨yoe, doy, a1, a2, a3, a4, a5⟩ := main 400 (by norm_num) doe h0
      (by unfold eraF; push_cast; omega)
    exact ⟨yoe, doy, a1, by push_cast at a2; omega, a3, a4, a5⟩
  · exact ⟨399, 365, by norm_num, by norm_num, by norm_num,
      Or.inr ⟨rfl, by norm_num, Or.inr rfl⟩, by rw [h1]; unfold eraF; norm_num⟩

/-- The year-of-era and day-of-year computed by `civilFromDays` are in range. -/
theorem cv_spec (z : Int) :
    0 ≤ cvYoe z ∧ cvYoe z ≤ 399 ∧ 0 ≤ cvDoy z ∧ cvDoy z ≤ 365 := by
  have hdoe : 0 ≤ cvDoe z ∧ cvDoe z ≤ 146096 := by unfold cvDoe cvEra; omega
  obtain ⟨yoe, doy, a1, a2, a3, a4, a5⟩ := era_coverage (cvDoe z) hdoe.1 hdoe.2
  have hyoe : cvYoe z = yoe := by
    unfold cvYoe
    rw [a5]
    exact yoe_decode yoe doy a1 a2 a3 a4
  have hdoy : cvDoy z = doy := by
    unfold cvDoy
    rw [hyoe, a5]
    unfold eraF
    omega
  refine ⟨?_, ?_, ?_, ?_⟩ <;> omega

/-- The March-based month index computed by `civilFromDays` is in `[0, 11]`. -/
theorem cvMp_spec (z : Int) : 0 ≤ cvMp z ∧ cvMp z ≤ 11 := by
  have := cv_spec z
  unfold cvMp
  omega

/-- The day-of-month computed by `civilFromDays` is in `[1, 31]`. -/
theorem cvD_spec (z : Int) : 1 ≤ cvD z ∧ cvD z ≤ 31 := by
  have h1 := cv_spec z
  have h2 := cvMp_spec z
  unfold cvD
  unfold cvMp at h2 ⊢
  unfold cvDoy at h1 h2 ⊢
  omega

/-- The month computed by `civilFromDays` is in `[1, 12]`, and is at most 2
exactly when the March-based index is at least 10. -/
theorem cvM_spec (z : Int) : 1 ≤ cvM z ∧ cvM z ≤ 12 ∧ (cvM z ≤ 2 ↔ 10 ≤ cvMp z) := by
  have := cvMp_spec z
  unfold cvM
  split <;> omega

/-- Encoding the calendar triple produced by `civilFromDays` recovers the day
number: `daysFromCivil` is a left inverse of `civilFromDays`. -/
theorem daysFromCivil_civilFromDays (z : Int) :
    daysFromCivil (cvY z) (cvM z) (cvD z) = z := by
  have hs := cv_spec z
  have hmp := cvMp_spec z
  have hera0 : cvEra z = (z + 719468) / 146097 := rfl
  have hdoe : cvDoe z = (z + 719468) - cvEra z * 146097 := rfl
  have hdoy : cvDoy z = cvDoe z - (365 * cvYoe z + cvYoe z / 4 - cvYoe z / 100) := rfl
  have hd : cvD z = cvDoy z - (153 * cvMp z + 2) / 5 + 1 := rfl
  by_cases hlt : cvMp z < 10
  · have hm : cvM z = cvMp z + 3 := by unfold cvM; simp [hlt]
    have hm2 : ¬ cvM z ≤ 2 := by omega
    have hy : cvY z = cvYoe z + cvEra z * 400 := by
      unfold cvY
      simp [hm2]
    rw [hy, hm]
    have h1 : dcY2 (cvYoe z + cvEra z * 400) (cvMp z + 3) = cvYoe z + cvEra z * 400 := by
      unfold dcY2
      rw [if_neg (by omega)]
      ring
    have h2 : dcEra (cvYoe z + cvEra z * 400) (cvMp z + 3) = cvEra z := by
      unfold dcEra
      rw [h1]
      omega
    have h3 : dcYoe (cvYoe z + cvEra z * 400) (cvMp z + 3) = cvYoe z := by
      unfold dcYoe
      rw [h1, h2]
      ring
    have h4 : dcDoy (cvMp z + 3) (cvD z) = cvDoy z := by
      unfold dcDoy
      rw [if_pos (by omega)]
      have he : cvMp z + 3 - 3 = cvMp z := by ring
      rw [he]
      omega
    have h5 : dcDoe (cvYoe z + cvEra z * 400) (cvMp z + 3) (cvD z) = cvDoe z := by
      unfold dcDoe
      rw [h3, h4]
      omega
    unfold daysFromCivil
    rw [h2, h5]
    omega
  · have hm : cvM z = cvMp z - 9 := by unfold cvM; simp [hlt]
    have hm2 : cvM z ≤ 2 := by omega
    have hy : cvY z = cvYoe z + cvEra z * 400 + 1 := by
      unfold cvY
      simp [hm2]
    rw [hy, hm]
    have h1 : dcY2 (cvYoe z + cvEra z * 400 + 1) (cvMp z - 9) = cvYoe z + cvEra z * 400 := by
      unfold dcY2
      rw [if_pos (by omega)]
      ring
    have h2 : dcEra (cvYoe z + cvEra z * 400 + 1) (cvMp z - 9) = cvEra z := by
      unfold dcEra
      rw [h1]
      omega
    have h3 : dcYoe (cvYoe z + cvEra z * 400 + 1) (cvMp z - 9) = cvYoe z := by
      unfold dcYoe
      rw [h1, h2]
      ring
    have h4 : dcDoy (cvMp z - 9) (cvD z) = cvDoy z := by
      unfold dcDoy
      rw [if_neg (by omega)]
      have he : cvMp z - 9 + 9 = cvMp z := by ring
      rw [he]
      omega
    have h5 : dcDoe (cvYoe z + cvEra z * 400 + 1) (cvMp z - 9) (cvD z) = cvDoe z := by
      unfold dcDoe
      rw [h3, h4]
      omega
    unfold daysFromCivil
    rw [h2, h5]
    omega

/-- Decoding the March-based month index from a day-of-year of a valid date. -/
theorem mp_decode (y m d : Int) (h1 : 1 ≤ m) (h2 : m ≤ 12) (h3 : 1 ≤ d)
    (h4 : d ≤ daysInMonth y m) :
    (5 * dcDoy m d + 2) / 153 = (if 2 < m then m - 3 else m + 9) := by
  unfold dcDoy daysInMonth at *
  interval_cases m <;> simp_all <;> omega

/-- The day-of-year of a valid date: at most 364, or 365 for February 29. -/
theorem doy_bound (m d : Int) (h1 : 1 ≤ m) (h2 : m ≤ 12) (h3 : 1 ≤ d) (h4 : d ≤ 31)
    (hfeb : m = 2 → d ≤ 29) :
    0 ≤ dcDoy m d ∧ (dcDoy m d ≤ 364 ∨ (dcDoy m d = 365 ∧ m = 2 ∧ d = 29)) := by
  unfold dcDoy
  interval_cases m <;> simp_all <;> omega

theorem civilFromDays_daysFromCivil (y m d : Int) (h : validYMD y m d) :
    civilFromDays (daysFromCivil y m d) = (y, m, d) := by
  obtain ⟨hm1, hm2, hd1, hd2⟩ := h
  have hd31 : d ≤ 31 := by
    unfold daysInMonth at hd2
    split_ifs at hd2 <;> omega
  have hfeb : m = 2 → d ≤ 29 := by
    intro hm
    unfold daysInMonth at hd2
    rw [if_pos hm] at hd2
    split_ifs at hd2 <;> omega
  have hyoe : 0 ≤ dcYoe y m ∧ dcYoe y m ≤ 399 := by unfold dcYoe dcEra; omega
  have hdoy := doy_bound m d hm1 hm2 hd1 hd31 hfeb
  -- the leap-year side condition for February 29
  have hleap : dcDoy m d = 365 →
      (dcYoe y m + 1) % 4 = 0 ∧ ((dcYoe y m + 1) % 100 ≠ 0 ∨ dcYoe y m = 399) := by
    intro h365
    obtain ⟨-, h365'⟩ := hdoy
    rcases h365' with h' | ⟨-, hm2', hd29⟩
    · omega
    · subst hm2' hd29
      have hdcY2 : dcY2 y 2 = y - 1 := by
        unfold dcY2
        rw [if_pos (by norm_num)]
      have hy : y = dcEra y 2 * 400 + dcYoe y 2 + 1 := by
        unfold dcYoe dcEra
        rw [hdcY2]
        omega
      have hl : y % 4 = 0 ∧ (y % 100 ≠ 0 ∨ y % 400 = 0) := by
        unfold daysInMonth at hd2
        rw [if_pos rfl] at hd2
        split_ifs at hd2 with hc
        · exact hc
        · omega
      omega
  have hor : dcDoy m d ≤ 364 ∨
      (dcDoy m d = 365 ∧ (dcYoe y m + 1) % 4 = 0 ∧
        ((dcYoe y m + 1) % 100 ≠ 0 ∨ dcYoe y m = 399)) := by
    obtain ⟨-, h'⟩ := hdoy
    rcases h' with h' | ⟨h365, -, -⟩
    · exact Or.inl h'
    · exact Or.inr ⟨h365, hleap h365⟩
  -- identify the pieces of the decode with those of the encode
  have hz : daysFromCivil y m d + 719468 = dcEra y m * 146097 + dcDoe y m d := by
    unfold daysFromCivil
    ring
  have hdoeb : 0 ≤ dcDoe y m d ∧ dcDoe y m d ≤ 146096 := by
    unfold dcDoe
    omega
  have hera : cvEra (daysFromCivil y m d) = dcEra y m := by
    unfold cvEra
    omega
  have hdoe : cvDoe (daysFromCivil y m d) = dcDoe y m d := by
    unfold cvDoe
    rw [hera]
    omega
  have hsplit : dcDoe y m d = eraF (dcYoe y m) + dcDoy m d := by
    unfold dcDoe eraF
    omega
  have hyoe2 : cvYoe (daysFromCivil y m d) = dcYoe y m := by
    unfold cvYoe
    rw [hdoe, hsplit]
    exact yoe_decode (dcYoe y m) (dcDoy m d) hyoe.1 hyoe.2 hdoy.1 hor
  have hdoy2 : cvDoy (daysFromCivil y m d) = dcDoy m d := by
    unfold cvDoy
    rw [hdoe, hyoe2, hsplit]
    unfold eraF
    omega
  have hmp2 : cvMp (daysFromCivil y m d) = (if 2 < m then m - 3 else m + 9) := by
    unfold cvMp
    rw [hdoy2]
    exact mp_decode y m d hm1 hm2 hd1 hd2
  have hd2' : cvD (daysFromCivil y m d) = d := by
    unfold cvD
    rw [hdoy2, hmp2]
    unfold dcDoy
    omega
  have hm2' : cvM (daysFromCivil y m d) = m := by
    unfold cvM
    rw [hmp2]
    split_ifs <;> omega
  have hy2 : cvY (daysFromCivil y m d) = y := by
    unfold cvY
    rw [hyoe2, hera, hm2']
    unfold dcYoe dcY2
    split_ifs <;> omega
  unfold civilFromDays
  rw [hy2, hm2', hd2']

/-- Facts about digit glyphs, for digits 0..9. -/
theorem digitChar_facts (k : Nat) (h : k ≤ 9) :
    digitVal (digitChar k) = k ∧ isDigitCh (digitChar k) = true ∧
    jsIsSpace (digitChar k) = false ∧ digitChar k ≠ '-' ∧ digitChar k ≠ '+' := by
  interval_cases k <;> exact ⟨rfl, rfl, rfl, by decide, by decide⟩

theorem natToDecAux8 (n : Nat) :
    natToDecAux 8 n = if n = 0 then [] else natToDecAux 7 (n / 10) ++ [digitChar (n % 10)] :=
  rfl

theorem natToDecAux7 (n : Nat) :
    natToDecAux 7 n = if n = 0 then [] else natToDecAux 6 (n / 10) ++ [digitChar (n % 10)] :=
  rfl

theorem natToDecAux6 (n : Nat) :
    natToDecAux 6 n = if n = 0 then [] else natToDecAux 5 (n / 10) ++ [digitChar (n % 10)] :=
  rfl

theorem natToDecAux5 (n : Nat) :
    natToDecAux 5 n = if n = 0 then [] else natToDecAux 4 (n / 10) ++ [digitChar (n % 10)] :=
  rfl

theorem natToDec_one (n : Nat) (h : n ≤ 9) : natToDec n = [digitChar n] := by
  rcases Nat.eq_zero_or_pos n with h0 | h0
  · subst h0; rfl
  · unfold natToDec
    rw [if_neg (by omega), natToDecAux8, if_neg (by omega)]
    have e1 : n / 10 = 0 := by omega
    have e2 : n % 10 = n := by omega
    rw [e1, e2]
    rfl

theorem natToDec_two (n : Nat) (h1 : 10 ≤ n) (h2 : n ≤ 99) :
    natToDec n = [digitChar (n / 10), digitChar (n % 10)] := by
  unfold natToDec
  rw [if_neg (by omega), natToDecAux8, if_neg (by omega), natToDecAux7, if_neg (by omega)]
  have e1 : n / 10 / 10 = 0 := by omega
  have e2 : n / 10 % 10 = n / 10 := by omega
  rw [e1, e2]
  rfl

theorem natToDec_three (n : Nat) (h1 : 100 ≤ n) (h2 : n ≤ 999) :
    natToDec n = [digitChar (n / 100), digitChar (n / 10 % 10), digitChar (n % 10)] := by
  unfold natToDec
  rw [if_neg (by omega), natToDecAux8, if_neg (by omega), natToDecAux7, if_neg (by omega),
    natToDecAux6, if_neg (by omega)]
  have e1 : n / 10 / 10 / 10 = 0 := by omega
  have e2 : n / 10 / 10 % 10 = n / 100 := by omega
  rw [e1, e2]
  rfl

theorem natToDec_four (n : Nat) (h1 : 1000 ≤ n) (h2 : n ≤ 9999) :
    natToDec n = [digitChar (n / 1000), digitChar (n / 100 % 10),
      digitChar (n / 10 % 10), digitChar (n % 10)] := by
  unfold natToDec
  rw [if_neg (by omega), natToDecAux8, if_neg (by omega), natToDecAux7, if_neg (by omega),
    natToDecAux6, if_neg (by omega), natToDecAux5, if_neg (by omega)]
  have e1 : n / 10 / 10 / 10 / 10 = 0 := by omega
  have e2 : n / 10 / 10 / 10 % 10 = n / 1000 := by omega
  have e3 : n / 10 / 10 % 10 = n / 100 % 10 := by omega
  rw [e1, e2, e3]
  rfl

theorem pad4_closed (n : Nat) (h : n ≤ 9999) :
    padZeros 4 (natToDec n) = [digitChar (n / 1000), digitChar (n / 100 % 10),
      digitChar (n / 10 % 10), digitChar (n % 10)] := by
  rcases le_or_lt n 9 with h1 | h1
  · rw [natToDec_one n h1]
    have e1 : n / 1000 = 0 := by omega
    have e2 : n / 100 % 10 = 0 := by omega
    have e3 : n / 10 % 10 = 0 := by omega
    have e4 : n % 10 = n := by omega
    rw [e1, e2, e3, e4]
    rfl
  rcases le_or_lt n 99 with h2 | h2
  · rw [natToDec_two n (by omega) h2]
    have e1 : n / 1000 = 0 := by omega
    have e2 : n / 100 % 10 = 0 := by omega
    have e3 : n / 10 % 10 = n / 10 := by omega
    rw [e1, e2, e3]
    rfl
  rcases le_or_lt n 999 with h3 | h3
  · rw [natToDec_three n (by omega) h3]
    have e1 : n / 1000 = 0 := by omega
    have e2 : n / 100 % 10 = n / 100 := by omega
    rw [e1, e2]
    rfl
  · rw [natToDec_four n (by omega) h]
    rfl

theorem twoDigit_closed (n : Int) (h1 : 0 ≤ n) (h2 : n ≤ 99) :
    twoDigit n = [digitChar (n.toNat / 10), digitChar (n.toNat % 10)] := by
  have hi : intToDec n = natToDec n.toNat := by
    unfold intToDec
    rw [if_neg (by omega)]
  rcases le_or_lt n 9 with h3 | h3
  · unfold twoDigit
    rw [hi, natToDec_one n.toNat (by omega)]
    have e1 : n.toNat / 10 = 0 := by omega
    rw [e1]
    have e2 : n.toNat % 10 = n.toNat := by omega
    rw [e2]
    rfl
  · unfold twoDigit
    rw [hi, natToDec_two n.toNat (by omega) (by omega)]
    rfl

theorem decToNat_two (a b : Nat) (ha : a ≤ 9) (hb : b ≤ 9) :
    decToNat [digitChar a, digitChar b] = 10 * a + b := by
  unfold decToNat
  simp [List.foldl, (digitChar_facts a ha).1, (digitChar_facts b hb).1]

theorem decToNat_four (a b c d : Nat) (ha : a ≤ 9) (hb : b ≤ 9) (hc : c ≤ 9) (hd : d ≤ 9) :
    decToNat [digitChar a, digitChar b, digitChar c, digitChar d]
      = 1000 * a + 100 * b + 10 * c + d := by
  unfold decToNat
  simp [List.foldl, (digitChar_facts a ha).1, (digitChar_facts b hb).1,
    (digitChar_facts c hc).1, (digitChar_facts d hd).1]
  ring

theorem jsParseInt_two (a b : Nat) (ha : a ≤ 9) (hb : b ≤ 9) :
    jsParseInt [digitChar a, digitChar b] = some ((10 * a + b : Nat) : Int) := by
  obtain ⟨-, hdig_a, hsp_a, hm_a, hp_a⟩ := digitChar_facts a ha
  obtain ⟨-, hdig_b, -, -, -⟩ := digitChar_facts b hb
  unfold jsParseInt jsParseIntFrom
  simp [List.dropWhile, hsp_a, List.takeWhile, hdig_a, hdig_b, hm_a, hp_a,
    decToNat_two a b ha hb]

theorem jsParseInt_four (a b c d : Nat) (ha : a ≤ 9) (hb : b ≤ 9) (hc : c ≤ 9) (hd : d ≤ 9) :
    jsParseInt [digitChar a, digitChar b, digitChar c, digitChar d]
      = some ((1000 * a + 100 * b + 10 * c + d : Nat) : Int) := by
  obtain ⟨-, hdig_a, hsp_a, hm_a, hp_a⟩ := digitChar_facts a ha
  obtain ⟨-, hdig_b, -, -, -⟩ := digitChar_facts b hb
  obtain ⟨-, hdig_c, -, -, -⟩ := digitChar_facts c hc
  obtain ⟨-, hdig_d, -, -, -⟩ := digitChar_facts d hd
  unfold jsParseInt jsParseIntFrom
  simp [List.dropWhile, hsp_a, List.takeWhile, hdig_a, hdig_b, hdig_c, hdig_d, hm_a, hp_a,
    decToNat_four a b c d ha hb hc hd]

theorem jsParseInt_twoDigit (m : Int) (h1 : 0 ≤ m) (h2 : m ≤ 99) :
    jsParseInt (twoDigit m) = some m := by
  rw [twoDigit_closed m h1 h2, jsParseInt_two _ _ (by omega) (by omega)]
  simp only [Option.some.injEq]
  omega

theorem jsParseInt_pad4 (y : Int) (h1 : 0 ≤ y) (h2 : y ≤ 9999) :
    jsParseInt (padZeros 4 (natToDec y.toNat)) = some y := by
  rw [pad4_closed y.toNat (by omega),
    jsParseInt_four _ _ _ _ (by omega) (by omega) (by omega) (by omega)]
  simp only [Option.some.injEq]
  omega

theorem intToDec_pad4 (y : Int) (h1 : 1000 ≤ y) (h2 : y ≤ 9999) :
    intToDec y = padZeros 4 (natToDec y.toNat) := by
  unfold intToDec
  rw [if_neg (by omega), natToDec_four y.toNat (by omega) (by omega)]
  simp [padZeros]

theorem slice04 (a b c d e : Char) (rest : List Char) :
    jsSlice (a :: b :: c :: d :: e :: rest) 0 4 = [a, b, c, d] := rfl

theorem slice57 (a b c d e f g h : Char) (rest : List Char) :
    jsSlice (a :: b :: c :: d :: e :: f :: g :: h :: rest) 5 7 = [f, g] := rfl

theorem slice810 (a b c d e f g h i j : Char) (rest : List Char) :
    jsSlice (a :: b :: c :: d :: e :: f :: g :: h :: i :: j :: rest) 8 10 = [i, j] := rfl

theorem get4 (a b c d e : Char) (rest : List Char) :
    (a :: b :: c :: d :: e :: rest).get? 4 = some e := rfl

theorem get7 (a b c d e f g h : Char) (rest : List Char) :
    (a :: b :: c :: d :: e :: f :: g :: h :: rest).get? 7 = some h := rfl

theorem dateStr_fields (y m d : Int) (hy1 : 0 ≤ y) (hy2 : y ≤ 9999)
    (hm1 : 0 ≤ m) (hm2 : m ≤ 99) (hd1 : 0 ≤ d) (hd2 : d ≤ 99) :
    dateStrChars y m d ≠ [] ∧
    (dateStrChars y m d).get? 4 = some '-' ∧
    (dateStrChars y m d).get? 7 = some '-' ∧
    jsParseInt (jsSlice (dateStrChars y m d) 0 4) = some y ∧
    jsParseInt (jsSlice (dateStrChars y m d) 5 7) = some m ∧
    jsParseInt (jsSlice (dateStrChars y m d) 8 10) = some d := by
  unfold dateStrChars
  rw [pad4_closed y.toNat (by omega), twoDigit_closed m hm1 hm2, twoDigit_closed d hd1 hd2]
  simp only [List.cons_append, List.nil_append]
  refine ⟨by simp, get4 _ _ _ _ _ _, get7 _ _ _ _ _ _ _ _ _, ?_, ?_, ?_⟩
  · rw [slice04]
    rw [jsParseInt_four _ _ _ _ (by omega) (by omega) (by omega) (by omega)]
    simp only [Option.some.injEq]
    omega
  · rw [slice57]
    rw [jsParseInt_two _ _ (by omega) (by omega)]
    simp only [Option.some.injEq]
    omega
  · rw [slice810]
    rw [jsParseInt_two _ _ (by omega) (by omega)]
    simp only [Option.some.injEq]
    omega


/-- C10 counterexample: `parseDate` does not yield `undefined` on every
unparsable string: on "abcd-ef-12" (dashes in place, year and month `NaN`) it
returns an Invalid Date object (`some none`), and on "2024-99-10" (no such
month) it returns a real rolled-over Date — in both cases a Date object, where
the claim requires `undefined` (`none`). -/
theorem c10_counterexample :
    parseDate ['a', 'b', 'c', 'd', '-', 'e', 'f', '-', '1', '2'] false
      (some (some 0)) 0 0 = some none ∧
    some (none : JSDateObj) ≠ (none : Option JSDateObj) ∧
    parseDate ['2', '0', '2', '4', '-', '9', '9', '-', '1', '0'] false
      (some (some 0)) 0 0 = some (some 1962489600000) := by
  refine ⟨by decide, by decide, by decide⟩

/-- C10 as amended: the parse functions installed by DateBox and TimeBox never
return an `Error` for any input; `parse24hTime` returns its `day` argument
unchanged whenever the string fails the shape test or a field is out of range;
`parseDate` yields `undefined` when the dash positions fail or all three
numeric fields are `NaN`, but a string passing the dash test with at least one
parsable field yields a Date object — an Invalid Date when some field is
`NaN` — rather than `undefined`. -/
theorem c10_parse_no_error_amended (utc : Bool) (off now : Int)
    (day time : Option JSDateObj) :
    (∀ s2 old2, DateBox.parse utc off now s2 old2
      = Except.ok (parseDate s2 utc old2 off now)) ∧
    (∀ v2 old2, TimeBox.parse utc day off now v2 old2
      = Except.ok (parse24hTime (some v2) (jsOrDate old2 day) utc off now)) ∧
    (∀ v : List Char, v.get? 2 ≠ some ':' → parse24hTime (some v) day utc off now = day) ∧
    (∀ (v : List Char) (hv mv : Int), jsParseInt (jsSlice v 0 2) = some hv →
      jsParseInt (v.drop 3) = some mv → ¬(0 ≤ hv ∧ hv < 24 ∧ 0 ≤ mv ∧ mv < 60) →
      parse24hTime (some v) day utc off now = day) ∧
    (∀ s : List Char, s.get? 4 ≠ some '-' → parseDate s utc time off now = none) ∧
    (∀ s : List Char, jsParseInt (jsSlice s 0 4) = none →
      jsParseInt (jsSlice s 5 7) = none → jsParseInt (jsSlice s 8 10) = none →
      parseDate s utc time off now = none) ∧
    (∀ (s : List Char) (dv : Int), s ≠ [] → s.get? 4 = some '-' → s.get? 7 = some '-' →
      jsParseInt (jsSlice s 0 4) = none → jsParseInt (jsSlice s 8 10) = some dv →
      parseDate s utc time off now = some none) := by
  refine ⟨fun s2 old2 => rfl, fun v2 old2 => rfl, ?_, ?_, ?_, ?_, ?_⟩
  · intro v h2
    unfold parse24hTime
    exact if_neg (fun hc => h2 hc.2)
  · intro v hv mv hh hm hrange
    unfold parse24hTime
    simp only [hh, hm]
    split_ifs <;> simp_all
  · intro s h4
    have hcond : ¬(s ≠ [] ∧ s.get? 4 = some '-' ∧ s.get? 7 = some '-') :=
      fun hc => h4 hc.2.1
    unfold parseDate
    rw [if_neg hcond]
  · intro s hy hm hd
    unfold parseDate
    split_ifs with hc
    · rw [hy, hm, hd]
      simp
    · rfl
  · intro s dv hne hg4 hg7 hy hd
    unfold parseDate
    rw [if_pos ⟨hne, hg4, hg7⟩, hy, hd]
    simp

theorem daysInMonth_le (y m : Int) : daysInMonth y m ≤ 31 := by
  unfold daysInMonth
  split_ifs <;> omega

theorem makeDay_std (y m d : Int) (h1 : 1 ≤ m) (h2 : m ≤ 12) :
    makeDay y (m - 1) d = daysFromCivil y m d := by
  unfold makeDay
  have e1 : (m - 1) / 12 = 0 := by omega
  have e2 : (m - 1) % 12 = m - 1 := by omega
  rw [e1, e2]
  norm_num

theorem daysFromCivil_range (y m d : Int) (hy1 : 0 ≤ y) (hy2 : y ≤ 9999)
    (hm1 : 1 ≤ m) (hm2 : m ≤ 12) (hd1 : 0 ≤ d) (hd2 : d ≤ 31) :
    -800000 ≤ daysFromCivil y m d ∧ daysFromCivil y m d ≤ 3000000 := by
  unfold daysFromCivil dcDoe dcDoy dcYoe dcEra dcY2
  split_ifs <;> omega

theorem slice02 (a b c : Char) (rest : List Char) :
    jsSlice (a :: b :: c :: rest) 0 2 = [a, b] := rfl

theorem drop3 (a b c : Char) (rest : List Char) :
    (a :: b :: c :: rest).drop 3 = rest := rfl

/-- `parseDate` on the canonical YYYY-MM-DD text of a date: the parsed fields
are written through `setFullYear` in local time (whatever `utc` says). -/
theorem parseDate_canonical (y m d t off now : Int) (utc : Bool)
    (hy1 : 0 ≤ y) (hy2 : y ≤ 9999) (hm1 : 1 ≤ m) (hm2 : m ≤ 12)
    (hd1 : 0 ≤ d) (hd2 : d ≤ 31) :
    parseDate (dateStrChars y m d) utc (some (some t)) off now
      = some (timeClip (daysFromCivil y m d * msPerDay + (t + off) % msPerDay - off)) := by
  obtain ⟨hne, hg4, hg7, hpy, hpm, hpd⟩ :=
    dateStr_fields y m d hy1 hy2 (by omega) (by omega) hd1 (by omega)
  unfold parseDate
  rw [if_pos ⟨hne, hg4, hg7⟩]
  rw [hpy, hpm, hpd]
  simp only [Option.isSome_some, Bool.true_or, if_pos]
  unfold setFullYearYMD makeDate timeWithinDay
  rw [makeDay_std y m d hm1 hm2]
  rfl

/-- `parse24hTime` on the canonical hh:mm text. -/
theorem parse24hTime_canonical (hh mi t off now : Int) (utc : Bool)
    (hh1 : 0 ≤ hh) (hh2 : hh ≤ 23) (hm1 : 0 ≤ mi) (hm2 : mi ≤ 59) :
    parse24hTime (some (twoDigit hh ++ ':' :: twoDigit mi)) (some (some t)) utc off now
      = some (if utc then setUTCHoursHM t hh mi else setHoursHM t off hh mi) := by
  have hph := jsParseInt_twoDigit hh hh1 (by omega)
  have hpm := jsParseInt_twoDigit mi hm1 (by omega)
  rw [twoDigit_closed hh hh1 (by omega)] at hph ⊢
  rw [twoDigit_closed mi hm1 (by omega)] at hpm ⊢
  simp only [List.cons_append, List.nil_append]
  simp only [parse24hTime]
  rw [if_pos ⟨by simp, rfl⟩]
  rw [slice02, drop3]
  simp only [hph, hpm]
  rw [if_pos (by omega)]

/-- C6 counterexample: with a +5h zone offset and `utc = true`, parsing
"2024-01-01" against the prior instant 1970-01-01T22:00Z yields a Date whose
UTC calendar date is 2023-12-31, not 2024-01-01: `parseDate` ignores the `utc`
flag and writes the fields through local-time `setFullYear`. -/
theorem c6_counterexample :
    parseDate ['2', '0', '2', '4', '-', '0', '1', '-', '0', '1'] true
      (some (some 79200000)) 18000000 0 = some (some 1704060000000) ∧
    getUTCymd 1704060000000 = (2023, 12, 31) ∧
    ((2023 : Int), (12 : Int), (31 : Int)) ≠ ((2024 : Int), (1 : Int), (1 : Int)) := by
  refine ⟨by decide, by decide, by decide⟩

/-- C6 as amended: `parseDate` interprets the Y-M-D fields in LOCAL time
regardless of the `utc` flag (the flag is ignored entirely), preserving the
prior instant's time-of-day — hours, minutes, seconds and milliseconds are
unchanged in both the local and the UTC reading; `parse24hTime` does honor
the `utc` flag: it preserves the calendar date in the requested timezone and
sets the requested time-of-day there. -/
theorem c6_field_parsing_amended (y m d t off now hh mi : Int) (utc : Bool)
    (hv : validYMD y m d) (hy1 : 1 ≤ y) (hy2 : y ≤ 9999)
    (hoff1 : -86400000 ≤ off) (hoff2 : off ≤ 86400000)
    (hh1 : 0 ≤ hh) (hh2 : hh ≤ 23) (hmi1 : 0 ≤ mi) (hmi2 : mi ≤ 59)
    (ht : t.natAbs ≤ 8553600000000000) :
    (∀ (s : List Char) (time : Option JSDateObj) (u1 u2 : Bool),
      parseDate s u1 time off now = parseDate s u2 time off now) ∧
    (∃ r : Int,
      parseDate (dateStrChars y m d) utc (some (some t)) off now = some (some r) ∧
      getLocalymd r off = (y, m, d) ∧
      hourFromTime (r + off) = hourFromTime (t + off) ∧
      minFromTime (r + off) = minFromTime (t + off) ∧
      secFromTime (r + off) = secFromTime (t + off) ∧
      msFromTime (r + off) = msFromTime (t + off) ∧
      hourFromTime r = hourFromTime t ∧
      minFromTime r = minFromTime t ∧
      secFromTime r = secFromTime t ∧
      msFromTime r = msFromTime t) ∧
    (∃ ru : Int,
      parse24hTime (some (twoDigit hh ++ ':' :: twoDigit mi)) (some (some t)) true off now
        = some (some ru) ∧
      jsDay ru = jsDay t ∧ hourFromTime ru = hh ∧ minFromTime ru = mi ∧
      secFromTime ru = 0 ∧ msFromTime ru = 0) ∧
    (∃ rl : Int,
      parse24hTime (some (twoDigit hh ++ ':' :: twoDigit mi)) (some (some t)) false off now
        = some (some rl) ∧
      jsDay (rl + off) = jsDay (t + off) ∧ hourFromTime (rl + off) = hh ∧
      minFromTime (rl + off) = mi ∧ secFromTime (rl + off) = 0 ∧
      msFromTime (rl + off) = 0) := by
  obtain ⟨hm1, hm2, hd1, hd4⟩ := hv
  have hd31 : d ≤ 31 := le_trans hd4 (daysInMonth_le y m)
  have hdr := daysFromCivil_range y m d (by omega) hy2 hm1 hm2 (by omega) hd31
  refine ⟨fun s time u1 u2 => rfl, ?_, ?_, ?_⟩
  · refine ⟨daysFromCivil y m d * msPerDay + (t + off) % msPerDay - off, ?_, ?_, ?_⟩
    · rw [parseDate_canonical y m d t off now utc (by omega) hy2 hm1 hm2 (by omega) hd31]
      unfold timeClip msPerDay
      rw [if_pos (by omega)]
    · unfold getLocalymd jsDay
      have hday : (daysFromCivil y m d * msPerDay + (t + off) % msPerDay - off + off)
          / msPerDay = daysFromCivil y m d := by
        unfold msPerDay
        omega
      rw [hday]
      exact civilFromDays_daysFromCivil y m d ⟨hm1, hm2, hd1, hd4⟩
    · unfold hourFromTime minFromTime secFromTime msFromTime msPerHour msPerMinute msPerDay
      omega
  · refine ⟨t / msPerDay * msPerDay + hh * 3600000 + mi * 60000, ?_, ?_⟩
    · rw [parse24hTime_canonical hh mi t off now true hh1 hh2 hmi1 hmi2]
      simp only [if_pos]
      unfold setUTCHoursHM makeDate makeTime jsDay timeClip msPerDay msPerHour msPerMinute
      rw [if_pos (by omega)]
      simp only [Option.some.injEq]
      omega
    · unfold jsDay hourFromTime minFromTime secFromTime msFromTime msPerHour
        msPerMinute msPerDay
      omega
  · refine ⟨(t + off) / msPerDay * msPerDay + hh * 3600000 + mi * 60000 - off, ?_, ?_⟩
    · rw [parse24hTime_canonical hh mi t off now false hh1 hh2 hmi1 hmi2]
      simp only [Bool.false_eq_true, if_false]
      unfold setHoursHM makeDate makeTime jsDay timeClip msPerDay msPerHour msPerMinute
      rw [if_pos (by omega)]
      simp only [Option.some.injEq]
      omega
    · unfold jsDay hourFromTime minFromTime secFromTime msFromTime msPerHour
        msPerMinute msPerDay
      omega

/-- C7 counterexample: with a +5h zone offset and `utc = true`, the round trip
`parseDate(dateToString(v, true), true, v)` maps 1970-01-01T22:00Z to an
instant one day earlier (stringify reads the UTC date, parseDate writes it as
the LOCAL date); and a value whose local year is 1 (itself producible by
`parseDate`) stringifies to "1-01-01", which `parseDate` cannot re-parse at
all — it returns `undefined`. -/
theorem c7_counterexample :
    parseDate (DateBox.stringify true 18000000 (some (some 79200000))) true
      (some (some 79200000)) 18000000 0 = some (some (-7200000)) ∧
    (some (some (-7200000)) : Option JSDateObj) ≠ some (some 79200000) ∧
    parseDate (DateBox.stringify false 0 (some (some (-62135553600000)))) false
      (some (some (-62135553600000))) 0 0 = none := by
  refine ⟨by decide, by decide, by decide⟩

/-- C7 as amended: `parse(stringify(v))` reproduces the instant `v` exactly
when (for the date field) `utc` is false and the local calendar year of `v`
is in 1000..9999, and (for the time field, either `utc` setting) the seconds
and milliseconds of `v` are zero — which holds of every value the time field
itself produces — with whole-minute zone offsets. -/
theorem c7_roundtrip_amended (v off now : Int)
    (hy1 : 1000 ≤ (getLocalymd v off).1) (hy2 : (getLocalymd v off).1 ≤ 9999)
    (hsec : v % 60000 = 0) (hoffm : off % 60000 = 0)
    (hvb : v.natAbs ≤ 8553600000000000) :
    parseDate (DateBox.stringify false off (some (some v))) false (some (some v)) off now
      = some (some v) ∧
    parse24hTime (some (TimeBox.stringify true off (some (some v)))) (some (some v)) true
      off now = some (some v) ∧
    parse24hTime (some (TimeBox.stringify false off (some (some v)))) (some (some v)) false
      off now = some (some v) := by
  have hY : (getLocalymd v off).1 = cvY (jsDay (v + off)) := rfl
  have hM := cvM_spec (jsDay (v + off))
  have hD := cvD_spec (jsDay (v + off))
  rw [hY] at hy1 hy2
  refine ⟨?_, ?_, ?_⟩
  · have hstr : DateBox.stringify false off (some (some v))
        = dateStrChars (cvY (jsDay (v + off))) (cvM (jsDay (v + off)))
          (cvD (jsDay (v + off))) := by
      simp only [DateBox.stringify, dateToString, Bool.false_eq_true, if_false,
        Option.getD_some]
      show intToDec (cvY (jsDay (v + off))) ++ '-' :: twoDigit (cvM (jsDay (v + off)))
          ++ '-' :: twoDigit (cvD (jsDay (v + off)))
        = dateStrChars (cvY (jsDay (v + off))) (cvM (jsDay (v + off))) (cvD (jsDay (v + off)))
      rw [intToDec_pad4 _ hy1 hy2]
      unfold dateStrChars
      rfl
    rw [hstr, parseDate_canonical _ _ _ v off now false (by omega) hy2 hM.1 hM.2.1
      (by omega) hD.2]
    rw [daysFromCivil_civilFromDays (jsDay (v + off))]
    have he : jsDay (v + off) * msPerDay + (v + off) % msPerDay - off = v := by
      unfold jsDay msPerDay
      omega
    rw [he]
    unfold timeClip
    rw [if_pos (by omega)]
  · have hts : TimeBox.stringify true off (some (some v))
        = twoDigit (hourFromTime v) ++ ':' :: twoDigit (minFromTime v) := rfl
    rw [hts, parse24hTime_canonical (hourFromTime v) (minFromTime v) v off now true
      (by unfold hourFromTime msPerHour; omega) (by unfold hourFromTime msPerHour; omega)
      (by unfold minFromTime msPerMinute; omega) (by unfold minFromTime msPerMinute; omega)]
    simp only [if_pos]
    unfold setUTCHoursHM makeDate makeTime jsDay timeClip hourFromTime minFromTime
      msPerDay msPerHour msPerMinute
    rw [if_pos (by omega)]
    simp only [Option.some.injEq]
    omega
  · have hts : TimeBox.stringify false off (some (some v))
        = twoDigit (hourFromTime (v + off)) ++ ':' :: twoDigit (minFromTime (v + off)) := rfl
    rw [hts, parse24hTime_canonical (hourFromTime (v + off)) (minFromTime (v + off)) v off
      now false
      (by unfold hourFromTime msPerHour; omega) (by unfold hourFromTime msPerHour; omega)
      (by unfold minFromTime msPerMinute; omega) (by unfold minFromTime msPerMinute; omega)]
    simp only [Bool.false_eq_true, if_false]
    unfold setHoursHM makeDate makeTime jsDay timeClip hourFromTime minFromTime
      msPerDay msPerHour msPerMinute
    rw [if_pos (by omega)]
    simp only [Option.some.injEq]
    omega

/-- C7 amended, witnessed at the instant 1970-03-27T17:36Z (divisible by one
minute) with a +1h offset. -/
theorem c7_roundtrip_amended_witness :
    1000 ≤ (getLocalymd 7407360000 3600000).1 ∧
    (getLocalymd 7407360000 3600000).1 ≤ 9999 ∧
    (7407360000 : Int) % 60000 = 0 ∧
    (3600000 : Int) % 60000 = 0 ∧
    (7407360000 : Int).natAbs ≤ 8553600000000000 ∧
    (parseDate (DateBox.stringify false 3600000 (some (some 7407360000))) false
        (some (some 7407360000)) 3600000 0 = some (some 7407360000) ∧
      parse24hTime (some (TimeBox.stringify true 3600000 (some (some 7407360000))))
        (some (some 7407360000)) true 3600000 0 = some (some 7407360000) ∧
      parse24hTime (some (TimeBox.stringify false 3600000 (some (some 7407360000))))
        (some (some 7407360000)) false 3600000 0 = some (some 7407360000)) :=
  ⟨by decide, by decide, by decide, by decide, by decide,
    c7_roundtrip_amended 7407360000 3600000 0 (by decide) (by decide) (by decide)
      (by decide) (by decide)⟩

/-- C10 amended, witnessed on "xx" (shape test fails) and "xxxxx" (dash test
fails) against the stored date object at instant 5. -/
theorem c10_parse_no_error_amended_witness :
    (['x', 'x'].get? 2 ≠ some ':') ∧
    parse24hTime (some ['x', 'x']) (some (some 5)) false 0 0 = some (some 5) ∧
    (['x', 'x', 'x', 'x', 'x'].get? 4 ≠ some '-') ∧
    parseDate ['x', 'x', 'x', 'x', 'x'] false (some (some 7)) 0 0 = none :=
  ⟨by decide,
    (c10_parse_no_error_amended false 0 0 (some (some 5)) (some (some 7))).2.2.1
      ['x', 'x'] (by decide),
    by decide,
    (c10_parse_no_error_amended false 0 0 (some (some 5)) (some (some 7))).2.2.2.2.1
      ['x', 'x', 'x', 'x', 'x'] (by decide)⟩

/-- C6 amended, witnessed on the leap day 2024-02-29 with a +1h offset,
time-of-day 23:59, prior instant 123456789 (1970-01-02T10:17:36.789Z). -/
theorem c6_field_parsing_amended_witness :
    validYMD 2024 2 29 ∧
    (1 : Int) ≤ 2024 ∧ (2024 : Int) ≤ 9999 ∧
    (-86400000 : Int) ≤ 3600000 ∧ (3600000 : Int) ≤ 86400000 ∧
    (0 : Int) ≤ 23 ∧ (23 : Int) ≤ 23 ∧ (0 : Int) ≤ 59 ∧ (59 : Int) ≤ 59 ∧
    (123456789 : Int).natAbs ≤ 8553600000000000 ∧
    ((∀ (s : List Char) (time : Option JSDateObj) (u1 u2 : Bool),
      parseDate s u1 time 3600000 0 = parseDate s u2 time 3600000 0) ∧
    (∃ r : Int,
      parseDate (dateStrChars 2024 2 29) true (some (some 123456789)) 3600000 0
        = some (some r) ∧
      getLocalymd r 3600000 = (2024, 2, 29) ∧
      hourFromTime (r + 3600000) = hourFromTime (123456789 + 3600000) ∧
      minFromTime (r + 3600000) = minFromTime (123456789 + 3600000) ∧
      secFromTime (r + 3600000) = secFromTime (123456789 + 3600000) ∧
      msFromTime (r + 3600000) = msFromTime (123456789 + 3600000) ∧
      hourFromTime r = hourFromTime 123456789 ∧
      minFromTime r = minFromTime 123456789 ∧
      secFromTime r = secFromTime 123456789 ∧
      msFromTime r = msFromTime 123456789) ∧
    (∃ ru : Int,
      parse24hTime (some (twoDigit 23 ++ ':' :: twoDigit 59)) (some (some 123456789))
        true 3600000 0 = some (some ru) ∧
      jsDay ru = jsDay 123456789 ∧ hourFromTime ru = 23 ∧ minFromTime ru = 59 ∧
      secFromTime ru = 0 ∧ msFromTime ru = 0) ∧
    (∃ rl : Int,
      parse24hTime (some (twoDigit 23 ++ ':' :: twoDigit 59)) (some (some 123456789))
        false 3600000 0 = some (some rl) ∧
      jsDay (rl + 3600000) = jsDay (123456789 + 3600000) ∧
      hourFromTime (rl + 3600000) = 23 ∧ minFromTime (rl + 3600000) = 59 ∧
      secFromTime (rl + 3600000) = 0 ∧ msFromTime (rl + 3600000) = 0)) :=
  ⟨by decide, by decide, by decide, by decide, by decide, by decide, by decide, by decide,
    by decide, by decide,
    c6_field_parsing_amended 2024 2 29 123456789 3600000 0 23 59 true (by decide)
      (by decide) (by decide) (by decide) (by decide) (by decide) (by decide) (by decide)
      (by decide) (by decide)⟩

/-- C1: for every holder flavor (value, prop, state) and either write timing:
after `set v` with no interceptor the store holds `v`; with an interceptor,
after `set v` the store holds `v` when the interceptor returned `undefined`
and holds `r` when it returned the defined value `r` (both cases captured by
`(f v stored).getD v`). -/
theorem c1_set_then_get {T : Type} [DecidableEq T] (d : Bool) (v stored : T)
    (f : T → T → Option T) :
    (ValueHolder.set d none stored v).value = v ∧
    (PropHolder.set d none stored v).value = v ∧
    (StateHolder.set d none stored v).value = v ∧
    (ValueHolder.set d (some f) stored v).value = (f v stored).getD v ∧
    (PropHolder.set d (some f) stored v).value = (f v stored).getD v ∧
    (StateHolder.set d (some f) stored v).value = (f v stored).getD v := by
  unfold ValueHolder.set PropHolder.set StateHolder.set
  cases d <;> rcases hf : f v stored with _ | r <;>
    simp [hf] <;> split <;> simp_all <;> split <;> simp_all

/-- C3: at the moment the interceptor runs during `set v`, a delayed-write
holder's backing store still holds the old value, while an eager-write
holder's backing store already holds the proposed value `v` — for all three
holder flavors. -/
theorem c3_interceptor_store_observation {T : Type} [DecidableEq T] (v stored : T)
    (f : T → T → Option T) :
    (ValueHolder.set true (some f) stored v).storeAtCall = some stored ∧
    (PropHolder.set true (some f) stored v).storeAtCall = some stored ∧
    (StateHolder.set true (some f) stored v).storeAtCall = some stored ∧
    (ValueHolder.set false (some f) stored v).storeAtCall = some v ∧
    (PropHolder.set false (some f) stored v).storeAtCall = some v ∧
    (StateHolder.set false (some f) stored v).storeAtCall = some v := by
  unfold ValueHolder.set PropHolder.set StateHolder.set
  rcases hf : f v stored with _ | r <;> simp [hf] <;> split <;> simp_all <;>
    split <;> simp_all

/-- C2 counterexample: an eager-write PropHolder with an interceptor, told to
`set` the value `5` it already stores, performs one assignment to the backing
model property (the unconditional pre-write before the interceptor runs) and
invokes the interceptor once — the claim asserts no assignment to the backing
store is observable. -/
theorem c2_counterexample :
    (PropHolder.set false (some (fun _ _ => none)) (5 : Int) 5).writes = 1 ∧
    (PropHolder.set false (some (fun _ _ => none)) (5 : Int) 5).interceptorCalls = 1 := by
  exact ⟨rfl, rfl⟩

/-- C2 as amended: when `set` is called with the currently stored value `v`
and the interceptor (if any) does not substitute a different value
(`(f v v).getD v = v`), then holders with no interceptor and delayed-write
holders with an interceptor perform no assignment to the backing store (though
the interceptor is still invoked once), while eager-write holders with an
interceptor perform exactly one assignment — the unconditional pre-write of
the identical value — and no further write. -/
theorem c2_idempotence_amended {T : Type} [DecidableEq T] (d : Bool) (v : T)
    (f : T → T → Option T) (h : (f v v).getD v = v) :
    (ValueHolder.set d none v v).writes = 0 ∧
    (PropHolder.set d none v v).writes = 0 ∧
    (StateHolder.set d none v v).writes = 0 ∧
    (ValueHolder.set true (some f) v v).writes = 0 ∧
    (PropHolder.set true (some f) v v).writes = 0 ∧
    (StateHolder.set true (some f) v v).writes = 0 ∧
    (ValueHolder.set true (some f) v v).interceptorCalls = 1 ∧
    (ValueHolder.set false (some f) v v).writes = 1 ∧
    (PropHolder.set false (some f) v v).writes = 1 ∧
    (StateHolder.set false (some f) v v).writes = 1 := by
  unfold ValueHolder.set PropHolder.set StateHolder.set
  rcases hf : f v v with _ | r <;> simp_all [hf]

/-- C2 amended, witnessed at `v = 5` with the interceptor that always returns
`undefined`. -/
theorem c2_idempotence_amended_witness :
    ((fun (_ _ : Int) => (none : Option Int)) 5 5).getD 5 = 5 ∧
    (ValueHolder.set true (some (fun (_ _ : Int) => none)) (5 : Int) 5).writes = 0 ∧
    (PropHolder.set false (some (fun (_ _ : Int) => none)) (5 : Int) 5).writes = 1 := by
  have h := c2_idempotence_amended true (5 : Int) (fun _ _ => none) (by decide)
  have h2 := c2_idempotence_amended false (5 : Int) (fun _ _ => none) (by decide)
  exact ⟨by decide, h.2.2.2.1, h2.2.2.2.2.2.2.2.2.1⟩

/-- Helper: the `onChange` handler never touches `hadError`. -/
theorem onChange_hadError {T : Type} (cfg : TBConfig T) (st : TBState T) (t : List Char) :
    (TextBase.onChange cfg st t).hadError = st.hadError := by
  unfold TextBase.onChange
  rcases cfg.parse t st.held with msg | r
  · rfl
  · rcases h : trySet cfg.value st.held r with ⟨s2, e⟩
    rcases e with _ | msg <;> simp [h]

/-- Helper: a run containing no blur event leaves `hadError` unchanged —
`hadError` is assigned only by the `onBlur` handler. -/
theorem tbRun_hadError_of_no_blur {T : Type} (cfg : TBConfig T) (st : TBState T)
    (evts : List TBEvent) (h : TBEvent.blurEv ∉ evts) :
    (tbRun cfg st evts).hadError = st.hadError := by
  induction evts generalizing st with
  | nil => rfl
  | cons e rest ih =>
    have he : e ≠ TBEvent.blurEv := fun hc => h (hc ▸ List.mem_cons_self e rest)
    have hr : TBEvent.blurEv ∉ rest := fun hc => h (List.mem_cons_of_mem e hc)
    cases e with
    | focusEv => rw [tbRun, List.foldl_cons, ← tbRun, ih _ hr]; rfl
    | blurEv => exact absurd rfl he
    | changeEv t =>
      rw [tbRun, List.foldl_cons, ← tbRun, ih _ hr]
      exact onChange_hadError cfg st t

/-- C4 counterexample: with `keepBadText = true` (discarding of typed text on
blur suppressed), `showErrorEarly = false`, and a parse error present after
typing into a field that has never lost focus, `getVisibleError` returns `""`:
no error is shown, although the claim's clause (b) says early display is
forced in exactly this situation. -/
theorem c4_counterexample :
    truthyO ((tbRun (⟨fun _ _ => Except.error "bad", some ⟨some fun _ n => Except.ok n⟩,
        true, false, none, ""⟩ : TBConfig Int) (tbInit 0)
        [TBEvent.focusEv, TBEvent.changeEv ['x']]).parseError) = true ∧
    (tbRun (⟨fun _ _ => Except.error "bad", some ⟨some fun _ n => Except.ok n⟩,
        true, false, none, ""⟩ : TBConfig Int) (tbInit 0)
        [TBEvent.focusEv, TBEvent.changeEv ['x']]).hadError = false ∧
    TextBase.getVisibleError
      (⟨fun _ _ => Except.error "bad", some ⟨some fun _ n => Except.ok n⟩,
        true, false, none, ""⟩ : TBConfig Int)
      (tbRun (⟨fun _ _ => Except.error "bad", some ⟨some fun _ n => Except.ok n⟩,
        true, false, none, ""⟩ : TBConfig Int) (tbInit 0)
        [TBEvent.focusEv, TBEvent.changeEv ['x']]) = "" := by
  decide

/-- C4 as amended: a validation error becomes visible only after the field has
lost focus at least once, except that (a) `showErrorEarly` makes it visible
immediately, and (b) when `keepBadText` is FALSE (typed text and its error
will be discarded on blur) and a parse error exists, early display is forced.
Formally: a run with no blur event and with `showErrorEarly` off shows no
error unless a parse error exists while `keepBadText` is off; and each of the
two exceptions makes `getVisibleError` return the full `getError` result. -/
theorem c4_error_visibility_amended {T : Type} (cfg cfg2 : TBConfig T) (v0 : T)
    (evts : List TBEvent) (st2 : TBState T)
    (hnb : TBEvent.blurEv ∉ evts)
    (hse : cfg.showErrorEarly = false)
    (hkb : truthyO (tbRun cfg (tbInit v0) evts).parseError = false ∨ cfg.keepBadText = true) :
    TextBase.getVisibleError cfg (tbRun cfg (tbInit v0) evts) = "" ∧
    (cfg2.showErrorEarly = true →
      TextBase.getVisibleError cfg2 st2 = TextBase.getError cfg2 st2) ∧
    (cfg2.keepBadText = false → truthyO st2.parseError = true →
      TextBase.getVisibleError cfg2 st2 = TextBase.getError cfg2 st2) := by
  refine ⟨?_, ?_, ?_⟩
  · have hhe : (tbRun cfg (tbInit v0) evts).hadError = false :=
      tbRun_hadError_of_no_blur cfg (tbInit v0) evts hnb
    unfold TextBase.getVisibleError
    rcases hkb with hkb | hkb <;> simp [hse, hhe, hkb]
  · intro h2
    unfold TextBase.getVisibleError
    simp [h2]
  · intro h2 h3
    unfold TextBase.getVisibleError
    simp [h2, h3]

/-- C4 amended, witnessed on the C5 scenario configuration (no blur in the
trace, flags at their defaults) and on a state with a parse error under
`showErrorEarly = true` and `keepBadText = false`. -/
theorem c4_error_visibility_amended_witness :
    (TBEvent.blurEv ∉ [TBEvent.focusEv, TBEvent.changeEv ['5']]) ∧
    scenarioCfg.showErrorEarly = false ∧
    truthyO (tbRun scenarioCfg (tbInit 7) [TBEvent.focusEv, TBEvent.changeEv ['5']]).parseError
      = false ∧
    (TextBase.getVisibleError scenarioCfg
        (tbRun scenarioCfg (tbInit 7) [TBEvent.focusEv, TBEvent.changeEv ['5']]) = "" ∧
      ((⟨scenarioParse, none, false, true, none, ""⟩ : TBConfig Int).showErrorEarly = true →
        TextBase.getVisibleError (⟨scenarioParse, none, false, true, none, ""⟩ : TBConfig Int)
            (⟨none, false, false, some "bad", 0⟩ : TBState Int)
          = TextBase.getError (⟨scenarioParse, none, false, true, none, ""⟩ : TBConfig Int)
            (⟨none, false, false, some "bad", 0⟩ : TBState Int)) ∧
      ((⟨scenarioParse, none, false, true, none, ""⟩ : TBConfig Int).keepBadText = false →
        truthyO (⟨none, false, false, some "bad", 0⟩ : TBState Int).parseError = true →
        TextBase.getVisibleError (⟨scenarioParse, none, false, true, none, ""⟩ : TBConfig Int)
            (⟨none, false, false, some "bad", 0⟩ : TBState Int)
          = TextBase.getError (⟨scenarioParse, none, false, true, none, ""⟩ : TBConfig Int)
            (⟨none, false, false, some "bad", 0⟩ : TBState Int))) :=
  ⟨by decide, by decide, by decide,
    c4_error_visibility_amended scenarioCfg ⟨scenarioParse, none, false, true, none, ""⟩ 7
      [TBEvent.focusEv, TBEvent.changeEv ['5']]
      ⟨none, false, false, some "bad", 0⟩ (by decide) (by decide) (Or.inl (by decide))⟩

/-- C5 counterexample: with `parse = s => parseInt(s) || Error("bad")` and the
holder storing `7`, the change event for typed text "12a" sets the holder to
`12` (JavaScript `parseInt("12a")` is `12`, not `NaN`) and records no error —
the claim says the holder stays unchanged and an error is recorded. -/
theorem c5_counterexample :
    (tbRun scenarioCfg (tbInit 7)
        [TBEvent.focusEv, TBEvent.changeEv ['1', '2', 'a']]).held = 12 ∧
    (tbRun scenarioCfg (tbInit 7)
        [TBEvent.focusEv, TBEvent.changeEv ['1', '2', 'a']]).held ≠ 7 ∧
    (tbRun scenarioCfg (tbInit 7)
        [TBEvent.focusEv, TBEvent.changeEv ['1', '2', 'a']]).parseError = none := by
  decide

/-- C5 as amended: with `parse = s => parseInt(s) || Error("bad")` and the
holder at `7`: the change event for "5" sets the holder to `5` and clears the
error; a change event for text with no leading integer ("a12") leaves the
holder unchanged and records the error "bad"; the change event for "12a" sets
the holder to `12` with no error, because `parseInt` parses the leading
digits; and a subsequent "5" after bad text again commits `5` and clears the
error. -/
theorem c5_scenario_amended :
    (tbRun scenarioCfg (tbInit 7) [TBEvent.focusEv, TBEvent.changeEv ['5']]).held = 5 ∧
    (tbRun scenarioCfg (tbInit 7) [TBEvent.focusEv, TBEvent.changeEv ['5']]).parseError
      = none ∧
    (tbRun scenarioCfg (tbInit 7)
        [TBEvent.focusEv, TBEvent.changeEv ['a', '1', '2']]).held = 7 ∧
    (tbRun scenarioCfg (tbInit 7)
        [TBEvent.focusEv, TBEvent.changeEv ['a', '1', '2']]).parseError = some "bad" ∧
    (tbRun scenarioCfg (tbInit 7)
        [TBEvent.focusEv, TBEvent.changeEv ['1', '2', 'a']]).held = 12 ∧
    (tbRun scenarioCfg (tbInit 7)
        [TBEvent.focusEv, TBEvent.changeEv ['1', '2', 'a']]).parseError = none ∧
    (tbRun scenarioCfg (tbInit 7)
        [TBEvent.focusEv, TBEvent.changeEv ['a', '1', '2'], TBEvent.changeEv ['5']]).held
      = 5 ∧
    (tbRun scenarioCfg (tbInit 7)
        [TBEvent.focusEv, TBEvent.changeEv ['a', '1', '2'],
          TBEvent.changeEv ['5']]).parseError = none := by
  decide

/-- C8: when a parse or write-rejection error is recorded (`parseError`
truthy) and the `error` prop is not set, `getError` returns the recorded
parse/write-rejection message — never the browser's native
`validationMessage`, even when one exists — and the displayed inline error
(`getVisibleError`) is therefore either hidden or that same message. -/
theorem c8_parse_error_priority {T : Type} (cfg : TBConfig T) (st : TBState T)
    (hprops : truthyO cfg.propsError = false)
    (hpe : truthyO st.parseError = true) :
    TextBase.getError cfg st = st.parseError.getD "" ∧
    (TextBase.getVisibleError cfg st = "" ∨
      TextBase.getVisibleError cfg st = st.parseError.getD "") := by
  constructor
  · unfold TextBase.getError
    simp [hprops, hpe]
  · unfold TextBase.getVisibleError
    split
    · right
      unfold TextBase.getError
      simp [hprops, hpe]
    · left
      rfl

/-- C8 witnessed at a state with parse error "bad" while the browser reports
the native message "native". -/
theorem c8_parse_error_priority_witness :
    truthyO (⟨scenarioParse, none, false, false, none, "native"⟩ : TBConfig Int).propsError
      = false ∧
    truthyO (⟨none, false, true, some "bad", 0⟩ : TBState Int).parseError = true ∧
    (TextBase.getError (⟨scenarioParse, none, false, false, none, "native"⟩ : TBConfig Int)
        (⟨none, false, true, some "bad", 0⟩ : TBState Int)
      = (⟨none, false, true, some "bad", 0⟩ : TBState Int).parseError.getD "" ∧
      (TextBase.getVisibleError
          (⟨scenarioParse, none, false, false, none, "native"⟩ : TBConfig Int)
          (⟨none, false, true, some "bad", 0⟩ : TBState Int) = "" ∨
        TextBase.getVisibleError
          (⟨scenarioParse, none, false, false, none, "native"⟩ : TBConfig Int)
          (⟨none, false, true, some "bad", 0⟩ : TBState Int)
        = (⟨none, false, true, some "bad", 0⟩ : TBState Int).parseError.getD "")) :=
  ⟨by decide, by decide,
    c8_parse_error_priority (⟨scenarioParse, none, false, false, none, "native"⟩ : TBConfig Int)
      (⟨none, false, true, some "bad", 0⟩ : TBState Int) (by decide) (by decide)⟩

/-- C9: when the `value` prop's holder has no `set` function, `isDisabled`
returns true for any value of the `disabled` prop (the rendered control is
disabled, since `render` assigns `inputProps.disabled = isDisabled(props)`),
and `trySet` leaves the backing store untouched and returns no caught
exception. -/
theorem c9_readonly_holder {T : Type} (d : Bool) (h : HolderRep T) (store v : T)
    (hro : h.set = none) :
    isDisabled d (some h) = true ∧ trySet (some h) store v = (store, none) := by
  simp [isDisabled, trySet, hro]

/-- C9 witnessed on a read-only holder over `Int`. -/
theorem c9_readonly_holder_witness :
    (⟨none⟩ : HolderRep Int).set = none ∧
    (isDisabled false (some (⟨none⟩ : HolderRep Int)) = true ∧
      trySet (some (⟨none⟩ : HolderRep Int)) (3 : Int) 4 = (3, none)) :=
  ⟨rfl, c9_readonly_holder false ⟨none⟩ 3 4 rfl⟩
